import Mathlib

/-!
Verification of the SalaryTrack analytics, storage, currency-formatting and
extraction logic against its natural-language specification.

Modelling conventions (shallow embedding of the TypeScript source):
* JS numbers are modelled as exact rationals; a division whose result would
  be non-finite in JS (`NaN` or infinite, i.e. a zero denominator) is
  modelled by `jsDiv` returning `none`.  Floating-point rounding is out of
  scope; the constant `30.44` is read as the exact rational `3044/100`.
* `x || y` on JS numbers falls back when `x` is absent (`undefined`) or `0`
  (both falsy); this is `jsOr` / the `Option.getD 0` special case.
* An entry's `date` string is modelled by its epoch timestamp in
  milliseconds (`new Date(d).getTime()`) together with its calendar year
  (`getFullYear()`).
* Parsed JSON documents are modelled by the `Json` inductive; the result of
  `JSON.parse` on an arbitrary string is an `Option Json` (`none` when the
  string does not parse).
* `localStorage` for the single storage key is modelled by
  `Option (Option Json)`: `none` when the key is absent, `some none` when a
  blob is present but is not parseable JSON, `some (some j)` when the blob
  parses to `j`.
-/

namespace SalaryTrack

/-- JS division with finiteness tracking: `none` models a non-finite result
(`NaN` when both operands are zero, `±Infinity` otherwise for a zero
denominator). -/
def jsDiv (a b : ℚ) : Option ℚ := if b = 0 then none else some (a / b)

/-- JS `x || y` where `x` is an optional number: falls back to `y` when `x`
is `undefined` or `0` (the falsy numbers, `NaN` being excluded by the
rational model). -/
def jsOr (a : Option ℚ) (b : ℚ) : ℚ :=
  match a with
  | none => b
  | some x => if x = 0 then b else x

/-- Parsed JSON values (the possible results of a successful `JSON.parse`). -/
inductive Json where
  | null : Json
  | bool (b : Bool) : Json
  | num (q : ℚ) : Json
  | str (s : String) : Json
  | arr (elems : List Json) : Json
  | obj (fields : List (String × Json)) : Json

/-- `Array.isArray` on a parsed JSON value. -/
def Json.isArr : Json → Bool
  | .arr _ => true
  | _ => false

/-- State of the single `localStorage` slot `financial_track_data_v2`:
`none` = key absent, `some none` = blob present but unparseable,
`some (some j)` = blob present and parsing to `j`. -/
abbrev StoreState := Option (Option Json)

/-- `storageService.getEntries` (src/services/storageService.ts lines 7-15):
returns `[]` when the key is absent (`!data`), returns `[]` when
`JSON.parse` throws, and otherwise returns the parsed value as-is. -/
def getEntries : StoreState → Json
  | none => .arr []
  | some none => .arr []
  | some (some j) => j

/-- `storageService.importData` (src/services/storageService.ts lines
42-53), taking the `JSON.parse` result of the imported blob: a parse
failure is caught and yields `false`; a parsed non-array yields `false`;
a parsed array is stored wholesale (the raw blob, whose parse is that
array, overwrites the slot) and yields `true`.  The slot is written only
in the success branch. -/
def importData (parsed : Option Json) (st : StoreState) : Bool × StoreState :=
  match parsed with
  | none => (false, st)
  | some j => if j.isArr then (true, some (some j)) else (false, st)

/-- Uppercasing a JS string unit-by-unit (`String.prototype.toUpperCase`
restricted to the ASCII range used by currency codes). -/
def upperOf (s : String) : String := String.mk (s.data.map Char.toUpper)

/-- One character of the class `[A-Z]`. -/
def isUpperAZ (c : Char) : Bool := 'A' ≤ c && c ≤ 'Z'

/-- The test `/^[A-Z]\x7b3\x7d$/.test s`: exactly three characters, all
uppercase A-Z. -/
def regexAZ3 (s : String) : Bool := s.length == 3 && s.data.all isUpperAZ

/-- `getSafeCurrency` (src/unnamed/part_007 lines 40-45): a missing or
empty code, or one whose length is not 3, falls back to `USD`; otherwise
the code is upper-cased and kept only if it matches `[A-Z]` three times. -/
def getSafeCurrency (code : Option String) : String :=
  match code with
  | none => "USD"
  | some c =>
    if c.length ≠ 3 then "USD"
    else if regexAZ3 (upperOf c) then upperOf c else "USD"

/-- Modelled from the spec wording of the currency policy, for comparison
with `getSafeCurrency`: validate against the pattern "exactly 3 uppercase
A-Z letters" after upper-casing; anything else silently substitutes USD. -/
def specSafeCurrency (code : Option String) : String :=
  match code with
  | none => "USD"
  | some c =>
    if regexAZ3 (upperOf c) then upperOf c else "USD"

/-- Outcome of the `generateContent` network call inside
`extractSalaryFromImage`: the promise either rejects (`netError`) or
resolves with a response whose effective text (the text, or the literal
empty-object string when absent) parses to `some j` or fails to parse. -/
inductive ExtractOutcome where
  | netError : ExtractOutcome
  | response (parsed : Option Json) : ExtractOutcome

/-- `geminiService.extractSalaryFromImage` (src/services/geminiService.ts
lines 8-85) as a function of the network outcome.  The `await` of
`generateContent` is NOT inside the `try`, so a rejected promise is
re-raised to the caller (modelled by `Except.error`).  Only the
`JSON.parse` of the response text is guarded: a parse failure is caught
and yields the empty object. -/
def extractSalaryFromImage : ExtractOutcome → Except Unit Json
  | .netError => .error ()
  | .response none => .ok (.obj [])
  | .response (some j) => .ok j

/-- JS object spread `\x7b...prev, ...ext\x7d` on field lists: every key of
`prev` keeps its position but takes the value from `ext` when `ext` also
binds it, and keys only in `ext` are appended in order. -/
def spreadMerge (prev ext : List (String × Json)) : List (String × Json) :=
  prev.map (fun p => (p.1, ((ext.find? (fun q => q.1 == p.1)).map (·.2)).getD p.2)) ++
    ext.filter (fun q => (prev.find? (fun p => p.1 == q.1)).isNone)

/-- Spreading an extracted JSON value over the form state: an object merges
its fields; any other parsed value contributes no string-keyed enumerable
properties relevant to the form, leaving it unchanged (array index keys are
not form fields). -/
def mergeForm (form : List (String × Json)) : Json → List (String × Json)
  | .obj fs => spreadMerge form fs
  | _ => form

/-- `handleFileUpload` (src/unnamed/part_002 lines 31-42): awaits the
extraction inside `try`; on success the draft is spread into the editable
form state, on an exception an alert is shown and the form is untouched.
The persisted store is threaded through unchanged: the handler never
writes extracted data to storage. -/
def handleFileUpload (o : ExtractOutcome) (form : List (String × Json))
    (st : StoreState) : List (String × Json) × StoreState :=
  match extractSalaryFromImage o with
  | .error _ => (form, st)
  | .ok j => (mergeForm form j, st)

/-- One disbursement record of an entry (`types.ts`): how a slice of the
net pay was routed to a bank destination. -/
structure Disbursement where
  bankCode : String
  bankName : String
  accountNo : String
  amount : ℚ
deriving Repr, DecidableEq

/-- One pay record (`FinancialEntry` in `types.ts`), restricted to the
fields the verified computations read.  The purely presentational fields
(`type`, `category`, `jobTitle`, `department`, `taxCode`, `ytdGross`,
`ytdNet`, `notes`, `lineItems`) are never consulted by the claims under
verification and are omitted.  The `date` string is represented by its
epoch-millisecond timestamp together with its calendar year. -/
structure FinancialEntry where
  id : String := ""
  source : String := ""
  date : ℤ := 0
  year : ℕ := 2024
  amount : ℚ := 0
  grossAmount : Option ℚ := none
  tax : Option ℚ := none
  deductions : Option ℚ := none
  workedHours : Option ℚ := none
  currency : String := "USD"
  disbursements : List Disbursement := []
deriving Repr, DecidableEq

/-- Comparison used by every `sort((a, b) => dateA - dateB)` in the source:
ascending by date. -/
def dateLe (a b : FinancialEntry) : Prop := a.date ≤ b.date

instance : DecidableRel dateLe := fun a b => inferInstanceAs (Decidable (a.date ≤ b.date))

instance : IsTotal FinancialEntry dateLe := ⟨fun a b => Int.le_total a.date b.date⟩

instance : IsTrans FinancialEntry dateLe := ⟨fun _ _ _ => Int.le_trans⟩

/-- Date-ascending stable sort, as performed by `[...entries].sort((a, b) =>
new Date(a.date).getTime() - new Date(b.date).getTime())`. -/
def sortByDate (es : List FinancialEntry) : List FinancialEntry :=
  List.insertionSort dateLe es

/-- Currency selection of `Dashboard.tsx` line 43:
`entries[0]?.currency || 'USD'` — the `USD` fallback fires only when there
is no first entry or its currency is the empty string; any other stored
code, valid or not, is passed to the formatter unvalidated. -/
def dashboardCurrency : List FinancialEntry → String
  | [] => "USD"
  | e :: _ => if e.currency = "" then "USD" else e.currency

/-- Entry carrying the spec's 2-character example code. -/
def entryUS : FinancialEntry := { currency := "us" }

/-- Claim C6: importing a snapshot whose content does not parse as JSON or
does not parse into an array returns failure and leaves the previously
persisted collection unchanged; importing any JSON array returns success
and replaces the persisted collection wholesale, without merging (the new
store does not depend on the prior one). -/
theorem importData_atomic_replace (parsed : Option Json) (st : StoreState) :
    (parsed = none → importData parsed st = (false, st)) ∧
    (∀ j, parsed = some j → j.isArr = false → importData parsed st = (false, st)) ∧
    (∀ xs, parsed = some (.arr xs) → importData parsed st = (true, some (some (.arr xs)))) := by
  refine ⟨fun h => by simp [h, importData], fun j hj hja => ?_, fun xs hxs => ?_⟩
  · simp [hj, importData, hja]
  · simp [hxs, importData, Json.isArr]

/-- Claim C6 witness: the spec example — a non-array payload leaves a
concrete prior store untouched and fails, while an array payload replaces
it and succeeds. -/
theorem importData_atomic_replace_witness :
    importData (some (.obj [("a", .num 1)])) (some (some (.arr [.num 2]))) =
      (false, some (some (.arr [.num 2]))) ∧
    importData none (some (some (.arr [.num 2]))) =
      (false, some (some (.arr [.num 2]))) ∧
    importData (some (.arr [])) (some (some (.arr [.num 2]))) =
      (true, some (some (.arr []))) := by
  refine ⟨?_, ?_, ?_⟩
  · exact (importData_atomic_replace (some (.obj [("a", .num 1)]))
      (some (some (.arr [.num 2])))).2.1 _ rfl rfl
  · exact (importData_atomic_replace none (some (some (.arr [.num 2])))).1 rfl
  · exact (importData_atomic_replace (some (.arr []))
      (some (some (.arr [.num 2])))).2.2 [] rfl

/-- Claim C10: reading the persisted collection is total (a plain Lean
function, never an exception) and returns the empty array both when the
stored blob is absent and when it is present but not parseable JSON;
a blob parsing to an array is returned as that array. -/
theorem getEntries_total_empty (st : StoreState) :
    (st = none → getEntries st = .arr []) ∧
    (st = some none → getEntries st = .arr []) ∧
    (∀ xs, st = some (some (.arr xs)) → getEntries st = .arr xs) := by
  refine ⟨fun h => by simp [h, getEntries], fun h => by simp [h, getEntries],
    fun xs h => by simp [h, getEntries]⟩

/-- Claim C10 witness: both failure shapes evaluate to the empty array on
concrete stores. -/
theorem getEntries_total_empty_witness :
    getEntries none = .arr [] ∧ getEntries (some none) = .arr [] :=
  ⟨(getEntries_total_empty none).1 rfl, (getEntries_total_empty (some none)).2.1 rfl⟩

/-- Claim C8 counterexample: the two cited call sites disagree.  With a
first entry whose stored code is `"us"`, the Dashboard.tsx formatter uses
`"us"` itself (no pattern validation — only the falsy check fires), while
`getSafeCurrency` substitutes `USD` as the claim demands; so display
formatting does not validate the code at every call site. -/
theorem dashboardCurrency_unvalidated :
    dashboardCurrency [entryUS] = "us" ∧ dashboardCurrency [entryUS] ≠ "USD" ∧
    getSafeCurrency (some "us") = "USD" := by
  refine ⟨by decide, by decide, by decide⟩

/-- Claim C8 (amended): `getSafeCurrency` of part_007 implements exactly
the spec policy — validate against "exactly 3 uppercase A-Z letters" after
upper-casing, silently substituting `USD` otherwise — while the
Dashboard.tsx formatter substitutes `USD` only for a missing or empty
first-entry code and passes every other stored code through unvalidated.
Both are pure formatting functions: the stored `currency` field is never
written. -/
theorem currency_policy (code : Option String) (e : FinancialEntry)
    (es : List FinancialEntry) (h : e.currency ≠ "") :
    getSafeCurrency code = specSafeCurrency code ∧
    dashboardCurrency (e :: es) = e.currency := by
  constructor
  · cases code with
    | none => rfl
    | some c =>
      have hlen : (upperOf c).length = c.length := by
        show (c.data.map Char.toUpper).length = c.data.length
        simp
      by_cases h3 : c.length = 3
      · simp [getSafeCurrency, specSafeCurrency, h3]
      · have hreg : regexAZ3 (upperOf c) = false := by
          simp only [regexAZ3, Bool.and_eq_false_iff]
          left
          simpa [hlen] using h3
        simp [getSafeCurrency, specSafeCurrency, h3, hreg]
  · simp [dashboardCurrency, h]

/-- Claim C8 witness: the spec's own examples, derived from the amended
theorem at concrete inputs — `"gbp"` upper-cases to `GBP` and is accepted,
while the Dashboard formatter keeps `"us"` as-is. -/
theorem currency_policy_witness :
    getSafeCurrency (some "gbp") = "GBP" ∧ dashboardCurrency [entryUS] = "us" := by
  have h := currency_policy (some "gbp") entryUS [] (by decide)
  exact ⟨by rw [h.1]; decide, h.2⟩

/-- Claim C9 counterexample: a rejected `generateContent` promise is not
caught inside `extractSalaryFromImage` (only the `JSON.parse` is), so the
network-error failure mode throws to the caller instead of yielding an
empty draft; the upload handler then merges nothing into the form. -/
theorem extract_network_error_throws :
    extractSalaryFromImage .netError = .error () ∧
    (handleFileUpload .netError [("source", .str "")] none).1 = [("source", .str "")] :=
  ⟨rfl, rfl⟩

/-- Claim C9 (amended): once a response arrives, the extraction call never
throws — a malformed or unparseable response text is caught and yields the
empty draft object — and the caller merges whatever draft object results
into the editable form; a network error, by contrast, propagates and the
handler leaves the form untouched.  In every case the handler leaves the
persisted store unchanged: extracted data is never written to storage. -/
theorem extract_response_never_throws (p : Option Json)
    (form : List (String × Json)) (st : StoreState) :
    (∃ j, extractSalaryFromImage (.response p) = .ok j) ∧
    (p = none → extractSalaryFromImage (.response p) = .ok (.obj [])) ∧
    (∀ o, (handleFileUpload o form st).2 = st) ∧
    ((handleFileUpload .netError form st).1 = form) ∧
    (∀ fs, extractSalaryFromImage (.response p) = .ok (.obj fs) →
      (handleFileUpload (.response p) form st).1 = spreadMerge form fs) := by
  refine ⟨?_, ?_, ?_, rfl, ?_⟩
  · cases p with
    | none => exact ⟨.obj [], rfl⟩
    | some j => exact ⟨j, rfl⟩
  · intro h; subst h; rfl
  · intro o
    cases o with
    | netError => rfl
    | response q => cases q <;> rfl
  · intro fs hfs
    simp [handleFileUpload, hfs, mergeForm]

/-- Claim C9 witness: on a concrete unparseable response and a concrete
form, the extraction yields the empty object, the form survives unchanged
and the store is untouched. -/
theorem extract_response_never_throws_witness :
    extractSalaryFromImage (.response none) = .ok (.obj []) ∧
    (handleFileUpload (.response none) [("amount", Json.num 0)] none).2 = none ∧
    (handleFileUpload (.response none) [("amount", Json.num 0)] none).1 =
      [("amount", Json.num 0)] := by
  have h := extract_response_never_throws none [("amount", Json.num 0)] none
  refine ⟨h.2.1 rfl, h.2.2.1 _, ?_⟩
  rw [h.2.2.2.2 [] (h.2.1 rfl)]
  rfl

/-- Reducing a list with `(acc, e) => acc + f e` from `c` is `c` plus the
sum of the mapped values. -/
theorem foldl_add_map {α : Type} (f : α → ℚ) :
    ∀ (l : List α) (c : ℚ), l.foldl (fun acc e => acc + f e) c = c + (l.map f).sum
  | [], c => by simp
  | x :: t, c => by
    simp only [List.foldl_cons, List.map_cons, List.sum_cons, foldl_add_map f t, add_assoc]

/-- `totalNet` of `Dashboard.tsx` line 75: `Σ e.amount` via `reduce`. -/
def totalNet (es : List FinancialEntry) : ℚ :=
  es.foldl (fun acc e => acc + e.amount) 0

/-- Gross of one entry as read by the Dashboard totals (line 76):
`e.grossAmount || e.amount + (e.tax || 0) + (e.deductions || 0)`. -/
def entryGrossD (e : FinancialEntry) : ℚ :=
  jsOr e.grossAmount (e.amount + jsOr e.tax 0 + jsOr e.deductions 0)

/-- `totalGross` of `Dashboard.tsx` line 76. -/
def totalGross (es : List FinancialEntry) : ℚ :=
  es.foldl (fun acc e => acc + entryGrossD e) 0

/-- Gross of one entry as read by the momentum windows, the Insights
retention denominator and the projection numerator:
`e.grossAmount || e.amount`. -/
def entryGrossSimple (e : FinancialEntry) : ℚ := jsOr e.grossAmount e.amount

/-- `Σ (e.grossAmount || e.amount)` via `reduce`. -/
def sumGrossSimple (es : List FinancialEntry) : ℚ :=
  es.foldl (fun acc e => acc + entryGrossSimple e) 0

/-- `stats.keepRate` of `Dashboard.tsx` line 87:
`totalGross ? (totalNet / totalGross) * 100 : 0`, with the division's
finiteness tracked by `jsDiv`. -/
def stats_keepRate (es : List FinancialEntry) : Option ℚ :=
  if totalGross es = 0 then some 0
  else (jsDiv (totalNet es) (totalGross es)).map (fun q => q * 100)

/-- `retentionRate` of `Insights.tsx` line 31 (before `toFixed`):
`entries.length > 0 ? Σ amount / Σ (grossAmount || amount) * 100 : 0`.
The division itself carries no zero-denominator guard. -/
def insights_retentionRate (es : List FinancialEntry) : Option ℚ :=
  if es.length = 0 then some 0
  else (jsDiv (totalNet es) (sumGrossSimple es)).map (fun q => q * 100)

/-- Entry whose net amount is zero and whose gross is absent. -/
def entryZero : FinancialEntry := { amount := 0 }

/-- Claim C1 counterexample: on the non-empty collection `[entryZero]` the
Insights call site divides `0` by a zero gross total with no guard, so the
retention percentage is `NaN` (modelled `none`), contradicting "always a
finite number ... for every call site that computes a net/gross retention
percentage". -/
theorem insights_retention_nonfinite :
    insights_retentionRate [entryZero] = none ∧ [entryZero] ≠ [] := by
  constructor
  · norm_num [insights_retentionRate, entryZero, totalNet, sumGrossSimple,
      entryGrossSimple, jsOr, jsDiv, List.foldl]
  · simp

/-- Claim C1 (amended): the Dashboard keep rate is always finite, equal to
`totalNet / totalGross * 100` with a result of `0` when `totalGross` is 0;
the Insights retention rate computes the same ratio over the
`grossAmount || amount` gross sum and is finite whenever that denominator
is nonzero, but is a non-finite number when a non-empty collection has a
zero gross sum.  The `reduce`-based totals agree with the mapped sums. -/
theorem keepRate_guarded (es : List FinancialEntry) :
    (∃ q, stats_keepRate es = some q) ∧
    (totalGross es = 0 → stats_keepRate es = some 0) ∧
    (totalGross es ≠ 0 → stats_keepRate es = some (totalNet es / totalGross es * 100)) ∧
    (sumGrossSimple es ≠ 0 →
      insights_retentionRate es = some (totalNet es / sumGrossSimple es * 100)) ∧
    (es ≠ [] → sumGrossSimple es = 0 → insights_retentionRate es = none) ∧
    totalNet es = (es.map (fun e => e.amount)).sum ∧
    totalGross es = (es.map entryGrossD).sum := by
  have hnet : totalNet es = (es.map (fun e => e.amount)).sum := by
    simpa using foldl_add_map (fun e => e.amount) es 0
  have hgross : totalGross es = (es.map entryGrossD).sum := by
    simpa using foldl_add_map entryGrossD es 0
  refine ⟨?_, ?_, ?_, ?_, ?_, hnet, hgross⟩
  · by_cases h : totalGross es = 0
    · exact ⟨0, by simp [stats_keepRate, h]⟩
    · exact ⟨totalNet es / totalGross es * 100, by simp [stats_keepRate, h, jsDiv]⟩
  · intro h; simp [stats_keepRate, h]
  · intro h; simp [stats_keepRate, h, jsDiv]
  · intro h
    have hne : es.length ≠ 0 := by
      intro hl
      rw [List.length_eq_zero] at hl
      simp [hl, sumGrossSimple] at h
    simp [insights_retentionRate, hne, jsDiv, h]
  · intro hne h
    have hl : es.length ≠ 0 := by
      intro hl
      exact hne (List.length_eq_zero.mp hl)
    simp [insights_retentionRate, hl, jsDiv, h]

/-- `slice(-3)`: the last `min 3 n` elements of a list. -/
def takeLast3 (l : List FinancialEntry) : List FinancialEntry :=
  l.drop (l.length - 3)

/-- `first3` of `Dashboard.tsx` line 80: `sorted.slice(0, 3)`. -/
def stats_first3 (es : List FinancialEntry) : List FinancialEntry :=
  (sortByDate es).take 3

/-- `last3` of `Dashboard.tsx` line 81: `sorted.slice(-3)`. -/
def stats_last3 (es : List FinancialEntry) : List FinancialEntry :=
  takeLast3 (sortByDate es)

/-- Window average as written at `Dashboard.tsx` lines 83-84:
`w.length ? w.reduce((a, b) => a + (b.grossAmount || b.amount), 0) / w.length : 0`. -/
def foldAvg (l : List FinancialEntry) : ℚ :=
  if l.length = 0 then 0
  else l.foldl (fun a b => a + entryGrossSimple b) 0 / (l.length : ℚ)

/-- Window average in the mapped-sum form used by the statement of the
momentum claim. -/
def avgWindow (l : List FinancialEntry) : ℚ :=
  if l.length = 0 then 0 else (l.map entryGrossSimple).sum / (l.length : ℚ)

theorem foldAvg_eq_avgWindow (l : List FinancialEntry) : foldAvg l = avgWindow l := by
  unfold foldAvg avgWindow
  rw [foldl_add_map entryGrossSimple l 0, zero_add]

/-- `stats.momentum` of `Dashboard.tsx` line 85:
`avgFirst3 ? ((avgLast3 - avgFirst3) / avgFirst3) * 100 : 0`, with the
division's finiteness tracked by `jsDiv`. -/
def stats_momentum (es : List FinancialEntry) : Option ℚ :=
  if foldAvg (stats_first3 es) = 0 then some 0
  else
    (jsDiv (foldAvg (stats_last3 es) - foldAvg (stats_first3 es))
      (foldAvg (stats_first3 es))).map (fun q => q * 100)

/-- Claim C2: momentum date-sorts the collection, windows it into the
first three and last three entries (overlapping below six entries),
averages the `grossAmount || amount` gross of each window, returns
`(avgLast3 - avgFirst3) / avgFirst3 * 100`, is `0` whenever `avgFirst3`
is `0` (in particular on the empty collection), and is always finite. -/
theorem momentum_windows_finite (es : List FinancialEntry) :
    (∃ q, stats_momentum es = some q) ∧
    List.Perm (sortByDate es) es ∧ List.Sorted dateLe (sortByDate es) ∧
    stats_first3 es = (sortByDate es).take 3 ∧
    stats_last3 es = (sortByDate es).drop ((sortByDate es).length - 3) ∧
    (avgWindow (stats_first3 es) = 0 → stats_momentum es = some 0) ∧
    (avgWindow (stats_first3 es) ≠ 0 →
      stats_momentum es =
        some ((avgWindow (stats_last3 es) - avgWindow (stats_first3 es))
          / avgWindow (stats_first3 es) * 100)) := by
  have hzero : avgWindow (stats_first3 es) = 0 → stats_momentum es = some 0 := by
    intro h
    simp [stats_momentum, foldAvg_eq_avgWindow, h]
  have hnz : avgWindow (stats_first3 es) ≠ 0 →
      stats_momentum es =
        some ((avgWindow (stats_last3 es) - avgWindow (stats_first3 es))
          / avgWindow (stats_first3 es) * 100) := by
    intro h
    simp [stats_momentum, foldAvg_eq_avgWindow, h, jsDiv]
  refine ⟨?_, List.perm_insertionSort dateLe es, List.sorted_insertionSort dateLe es,
    rfl, rfl, hzero, hnz⟩
  by_cases h : avgWindow (stats_first3 es) = 0
  · exact ⟨0, hzero h⟩
  · exact ⟨_, hnz h⟩

/-- Four entries realising the overlapping-window example of the claim. -/
def demo4 : List FinancialEntry :=
  [{ date := 0, amount := 100, grossAmount := some 100 },
   { date := 1, amount := 200, grossAmount := some 200 },
   { date := 2, amount := 300, grossAmount := some 300 },
   { date := 3, amount := 400, grossAmount := some 400 }]

/-- Claim C2 witness: on the 4-entry collection the windows are
entries 0..2 and 1..3, the averages are 200 and 300, and the momentum is
`(300 - 200) / 200 * 100 = 50`, obtained through the main theorem. -/
theorem momentum_windows_finite_witness :
    stats_momentum demo4 = some 50 := by
  have h := momentum_windows_finite demo4
  have hsort : sortByDate demo4 = demo4 := by
    norm_num [sortByDate, demo4, List.insertionSort, List.orderedInsert, dateLe]
  have hf : avgWindow (stats_first3 demo4) = 200 := by
    simp only [stats_first3]
    rw [hsort]
    norm_num [avgWindow, demo4, entryGrossSimple, jsOr]
  have hl : avgWindow (stats_last3 demo4) = 300 := by
    simp only [stats_last3, takeLast3]
    rw [hsort]
    norm_num [avgWindow, demo4, entryGrossSimple, jsOr]
  rw [h.2.2.2.2.2.2 (by rw [hf]; norm_num), hf, hl]
  norm_num
def demoEntries : List FinancialEntry :=
  [{ date := 0, year := 2023, amount := 1000, grossAmount := some 1300 },
   { date := 13132800000, year := 2023, amount := 1100, grossAmount := some 1400 },
   { date := 31536000000, year := 2024, amount := 1200, grossAmount := some 1500 }]

/-- Claim C1 witness: the spec's end-to-end example evaluates to
`totalNet = 3300`, `totalGross = 4200` and a keep rate of `550/7 ≈ 78.6%`
at both call sites, via the amended theorem. -/
theorem keepRate_guarded_witness :
    totalNet demoEntries = 3300 ∧ totalGross demoEntries = 4200 ∧
    stats_keepRate demoEntries = some (550 / 7) ∧
    insights_retentionRate demoEntries = some (550 / 7) := by
  have h := keepRate_guarded demoEntries
  have hnet : totalNet demoEntries = 3300 := by
    norm_num [totalNet, demoEntries, List.foldl]
  have hgross : totalGross demoEntries = 4200 := by
    norm_num [totalGross, demoEntries, entryGrossD, jsOr, List.foldl]
  have hsimple : sumGrossSimple demoEntries = 4200 := by
    norm_num [sumGrossSimple, demoEntries, entryGrossSimple, jsOr, List.foldl]
  refine ⟨hnet, hgross, ?_, ?_⟩
  · rw [h.2.2.1 (by rw [hgross]; norm_num), hnet, hgross]
    norm_num
  · rw [h.2.2.2.1 (by rw [hsimple]; norm_num), hnet, hsimple]
    norm_num

/-- `entries.filter(e => (e.workedHours || 0) > 0)` as used by both hourly
averages. -/
def entriesWithHours (es : List FinancialEntry) : List FinancialEntry :=
  es.filter (fun e => decide (0 < jsOr e.workedHours 0))

/-- `stats.effectiveHourly` of `Dashboard.tsx` lines 89-92: the average,
over entries with positive worked hours, of
`(e.grossAmount || e.amount) / (e.workedHours || 1)`; `0` when no entry
qualifies. -/
def stats_effectiveHourly (es : List FinancialEntry) : ℚ :=
  if (entriesWithHours es).length = 0 then 0
  else
    (entriesWithHours es).foldl
      (fun acc e => acc + entryGrossSimple e / jsOr e.workedHours 1) 0
      / ((entriesWithHours es).length : ℚ)

/-- `analysis.hourlyRate` of `src/unnamed/part_003` lines 40-42: the same
average but with numerator `(e.grossAmount || 0)`. -/
def analysis_hourlyRate (es : List FinancialEntry) : ℚ :=
  if (entriesWithHours es).length = 0 then 0
  else
    (entriesWithHours es).foldl
      (fun acc e => acc + jsOr e.grossAmount 0 / jsOr e.workedHours 1) 0
      / ((entriesWithHours es).length : ℚ)

/-- Entry with ten worked hours, an explicit zero gross, and a nonzero net
amount. -/
def entryZeroGross : FinancialEntry :=
  { amount := 500, grossAmount := some 0, workedHours := some 10 }

/-- Claim C3 counterexample: the claim's `workedHours = 10, grossAmount = 0`
entry contributes `0` only at the part_003 call site; in the Dashboard
average the zero gross is falsy, `grossAmount || amount` falls back to the
net amount, and the entry contributes `500 / 10 = 50`, not `0`. -/
theorem effectiveHourly_zero_gross_cex :
    stats_effectiveHourly [entryZeroGross] = 50 ∧
    stats_effectiveHourly [entryZeroGross] ≠ 0 ∧
    analysis_hourlyRate [entryZeroGross] = 0 := by
  have h1 : stats_effectiveHourly [entryZeroGross] = 50 := by
    norm_num [stats_effectiveHourly, entriesWithHours, entryZeroGross,
      entryGrossSimple, jsOr, List.filter, List.foldl]
  have h2 : analysis_hourlyRate [entryZeroGross] = 0 := by
    norm_num [analysis_hourlyRate, entriesWithHours, entryZeroGross, jsOr,
      List.filter, List.foldl]
  exact ⟨h1, by rw [h1]; norm_num, h2⟩

/-- Claim C3 (amended): both hourly averages range over exactly the entries
with positive worked hours — an entry with zero or absent hours is dropped
from numerator and denominator alike — and a positive-hours entry with an
explicit zero gross contributes `0` to the part_003 average but
`amount / workedHours` to the Dashboard average, because the Dashboard
numerator `grossAmount || amount` treats the zero gross as falsy. -/
theorem hourly_exclusion (e0 e1 : FinancialEntry) (es : List FinancialEntry)
    (h0 : jsOr e0.workedHours 0 = 0) (h1 : 0 < jsOr e1.workedHours 0)
    (hg : e1.grossAmount = some 0) :
    stats_effectiveHourly (e0 :: es) = stats_effectiveHourly es ∧
    analysis_hourlyRate (e0 :: es) = analysis_hourlyRate es ∧
    analysis_hourlyRate [e1] = 0 ∧
    stats_effectiveHourly [e1] = e1.amount / jsOr e1.workedHours 1 := by
  have hdrop : entriesWithHours (e0 :: es) = entriesWithHours es := by
    simp [entriesWithHours, List.filter, h0]
  have hkeep : entriesWithHours [e1] = [e1] := by
    simp [entriesWithHours, List.filter, decide_eq_true_eq, h1]
  refine ⟨?_, ?_, ?_, ?_⟩
  · simp [stats_effectiveHourly, hdrop]
  · simp [analysis_hourlyRate, hdrop]
  · simp [analysis_hourlyRate, hkeep, jsOr, hg, List.foldl]
  · simp [stats_effectiveHourly, hkeep, entryGrossSimple, jsOr, hg, List.foldl]

/-- Entry with no recorded hours, excluded from the averages. -/
def entryNoHours : FinancialEntry := { amount := 900, grossAmount := some 1000 }

/-- Claim C3 witness: the spec's two example entries, through the amended
theorem — the hour-less entry leaves both singleton averages untouched,
and the zero-gross ten-hour entry averages to `0` (part_003) versus
`500 / 10 = 50` (Dashboard). -/
theorem hourly_exclusion_witness :
    stats_effectiveHourly [entryNoHours, entryZeroGross] =
      stats_effectiveHourly [entryZeroGross] ∧
    analysis_hourlyRate [entryZeroGross] = 0 ∧
    stats_effectiveHourly [entryZeroGross] = 50 := by
  have h := hourly_exclusion entryNoHours entryZeroGross [entryZeroGross]
    (by norm_num [entryNoHours, jsOr])
    (by norm_num [entryZeroGross, jsOr])
    rfl
  refine ⟨h.1, h.2.2.1, ?_⟩
  rw [h.2.2.2]
  norm_num [entryZeroGross, jsOr]

/-- Head of a `dateLe`-sorted list carries the minimal date. -/
theorem sorted_head_min {a : FinancialEntry} {t : List FinancialEntry}
    (hs : List.Sorted dateLe (a :: t)) : ∀ e ∈ a :: t, a.date ≤ e.date := by
  intro e he
  rcases List.mem_cons.mp he with rfl | ht
  · exact le_refl _
  · exact (List.sorted_cons.mp hs).1 e ht

/-- Last element of a `dateLe`-sorted list carries the maximal date. -/
theorem sorted_getLast_max :
    ∀ (l : List FinancialEntry) (hne : l ≠ []), List.Sorted dateLe l →
      ∀ e ∈ l, e.date ≤ (l.getLast hne).date := by
  intro l
  induction l with
  | nil => intro hne; exact absurd rfl hne
  | cons a t ih =>
    intro hne hs e he
    cases t with
    | nil =>
      rcases List.mem_cons.mp he with rfl | h
      · exact le_refl _
      · simp at h
    | cons b t' =>
      rw [List.getLast_cons_cons]
      rcases List.mem_cons.mp he with rfl | h
      · exact (List.sorted_cons.mp hs).1 _ (List.getLast_mem (List.cons_ne_nil _ _))
      · exact ih (List.cons_ne_nil _ _) (List.sorted_cons.mp hs).2 e h

/-- Milliseconds per average month, `1000 * 60 * 60 * 24 * 30.44`, with the
float literal read exactly. -/
def msPerMonth : ℚ := 1000 * 60 * 60 * 24 * (3044 / 100)

/-- `analysis.lifetimeProjection` of `src/unnamed/part_003` lines 44-48:
`monthsDiff` is the sorted first-to-latest date span over `msPerMonth`;
the average monthly gross divides `Σ (grossAmount || amount)` by
`monthsDiff || 1` (the JS falsy fallback, which replaces only an exactly
zero span); the projection multiplies by `12 * 35`.  The enclosing
`analysis` memo is `null` on an empty collection, modelled by `none`. -/
def analysis_lifetimeProjection (es : List FinancialEntry) : Option ℚ :=
  match sortByDate es with
  | [] => none
  | first :: rest =>
    some (sumGrossSimple es /
      (if ((((first :: rest).getLast (List.cons_ne_nil _ _)).date - first.date : ℤ) : ℚ)
            / msPerMonth = 0 then 1
       else ((((first :: rest).getLast (List.cons_ne_nil _ _)).date - first.date : ℤ) : ℚ)
            / msPerMonth) * 12 * 35)

/-- Modelled from the spec wording of the lifetime projection, for
comparison: `avgMonthlyGross = Σgross / max(monthsSpan, 1)` — the divisor
clamped up to `1` whenever the span is below one month. -/
def lifetimeProjectionSpec (es : List FinancialEntry) : Option ℚ :=
  match sortByDate es with
  | [] => none
  | first :: rest =>
    some (sumGrossSimple es /
      max (((((first :: rest).getLast (List.cons_ne_nil _ _)).date - first.date : ℤ) : ℚ)
        / msPerMonth) 1 * 12 * 35)

/-- Entry dated at epoch with gross 100. -/
def entryDay0 : FinancialEntry := { date := 0, amount := 100, grossAmount := some 100 }

/-- Entry dated fifteen days after epoch with gross 100. -/
def entryDay15 : FinancialEntry :=
  { date := 1296000000, amount := 100, grossAmount := some 100 }

/-- Two entries spanning half a month. -/
def spanCex : List FinancialEntry := [entryDay0, entryDay15]

/-- Claim C4 counterexample: over a fifteen-day span the code divides by
the actual `monthsSpan = 15 / 30.44` (only an exactly zero span falls back
to `1`), not by `max(monthsSpan, 1)`: the code projects `170464` where the
claimed clamped formula yields `84000`. -/
theorem lifetimeProjection_not_clamped :
    analysis_lifetimeProjection spanCex = some 170464 ∧
    lifetimeProjectionSpec spanCex = some 84000 ∧
    analysis_lifetimeProjection spanCex ≠ lifetimeProjectionSpec spanCex := by
  have hsort : sortByDate spanCex = [entryDay0, entryDay15] := by
    norm_num [sortByDate, spanCex, List.insertionSort, List.orderedInsert, dateLe,
      entryDay0, entryDay15]
  have h1 : analysis_lifetimeProjection spanCex = some 170464 := by
    simp only [analysis_lifetimeProjection, hsort]
    norm_num [sumGrossSimple, spanCex, entryGrossSimple, jsOr, msPerMonth,
      entryDay0, entryDay15, List.foldl, List.getLast]
  have h2 : lifetimeProjectionSpec spanCex = some 84000 := by
    simp only [lifetimeProjectionSpec, hsort]
    have hmax : (1296000000 : ℚ) / msPerMonth ⊔ 1 = 1 :=
      max_eq_right (by norm_num [msPerMonth])
    norm_num [List.getLast, sumGrossSimple, spanCex, entryGrossSimple, jsOr,
      entryDay0, entryDay15, List.foldl, hmax]
  exact ⟨h1, h2, by rw [h1, h2]; simp⟩

/-- Claim C4 (amended): for a non-empty collection the projection equals
`Σ (grossAmount || amount)` divided by the span in average months between
the minimal and maximal entry dates — the divisor replaced by `1` only
when that span is exactly zero, not clamped up to `1` — times `12 * 35`. -/
theorem lifetimeProjection_divisor (es : List FinancialEntry) (h : es ≠ []) :
    ∃ first latest, first ∈ es ∧ latest ∈ es ∧
      (∀ e ∈ es, first.date ≤ e.date ∧ e.date ≤ latest.date) ∧
      analysis_lifetimeProjection es =
        some (sumGrossSimple es /
          (if (((latest.date - first.date : ℤ) : ℚ) / msPerMonth) = 0 then 1
           else ((latest.date - first.date : ℤ) : ℚ) / msPerMonth) * 12 * 35) := by
  cases hsort : sortByDate es with
  | nil =>
    exfalso
    have hlen := (List.perm_insertionSort dateLe es).length_eq
    rw [show List.insertionSort dateLe es = sortByDate es from rfl, hsort] at hlen
    exact h (List.length_eq_zero.mp hlen.symm)
  | cons first rest =>
    have hperm : List.Perm (first :: rest) es := by
      rw [← hsort]
      exact List.perm_insertionSort dateLe es
    have hsorted : List.Sorted dateLe (first :: rest) := by
      rw [← hsort]
      exact List.sorted_insertionSort dateLe es
    refine ⟨first, (first :: rest).getLast (List.cons_ne_nil _ _),
      hperm.mem_iff.mp (List.mem_cons_self _ _),
      hperm.mem_iff.mp (List.getLast_mem _), ?_, ?_⟩
    · intro e he
      have he' : e ∈ first :: rest := hperm.mem_iff.mpr he
      exact ⟨sorted_head_min hsorted e he',
        sorted_getLast_max _ (List.cons_ne_nil _ _) hsorted e he'⟩
    · simp only [analysis_lifetimeProjection, hsort]

/-- Claim C4 witness: the amended theorem applied to the half-month pair
pins the extremal entries and evaluates the projection to `170464`. -/
theorem lifetimeProjection_divisor_witness :
    analysis_lifetimeProjection spanCex = some 170464 ∧ spanCex ≠ [] := by
  obtain ⟨f, l, hf, hl, hb, heq⟩ :=
    lifetimeProjection_divisor spanCex (by simp [spanCex])
  have hfd : f.date = 0 := by
    have hb0 := (hb entryDay0 (by simp [spanCex])).1
    rcases (by simpa [spanCex] using hf : f = entryDay0 ∨ f = entryDay15) with rfl | rfl
    · rfl
    · exfalso
      rw [entryDay0] at hb0
      norm_num [entryDay15] at hb0
  have hld : l.date = 1296000000 := by
    have hb15 := (hb entryDay15 (by simp [spanCex])).2
    rcases (by simpa [spanCex] using hl : l = entryDay0 ∨ l = entryDay15) with rfl | rfl
    · exfalso
      rw [entryDay0] at hb15
      norm_num [entryDay15] at hb15
    · rfl
  refine ⟨?_, by simp [spanCex]⟩
  rw [heq, hfd, hld]
  norm_num [sumGrossSimple, spanCex, entryGrossSimple, jsOr, msPerMonth,
    entryDay0, entryDay15, List.foldl]

/-- First-match lookup in a JS-object-as-association-list. -/
def lookupKey {G : Type} (k : String) : List (String × G) → Option G
  | [] => none
  | p :: t => if p.1 = k then some p.2 else lookupKey k t

/-- The JS `Record` upsert pattern used by every rollup:
`if (!m[k]) m[k] = init0; bump m[k]` — an existing slot is updated in
place, a fresh slot is appended in insertion order. -/
def upsertRecord {G : Type} (k : String) (init : G) (bump : G → G)
    (acc : List (String × G)) : List (String × G) :=
  match lookupKey k acc with
  | some _ => acc.map (fun p => if p.1 = k then (p.1, bump p.2) else p)
  | none => acc ++ [(k, init)]

theorem lookupKey_append {G : Type} (k : String) (l1 l2 : List (String × G)) :
    lookupKey k (l1 ++ l2) =
      match lookupKey k l1 with
      | some v => some v
      | none => lookupKey k l2 := by
  induction l1 with
  | nil => simp [lookupKey]
  | cons p t ih => by_cases h : p.1 = k <;> simp [lookupKey, h, ih]

theorem lookupKey_mapUpdate {G : Type} (k k0 : String) (bump : G → G)
    (l : List (String × G)) :
    lookupKey k (l.map (fun p => if p.1 = k0 then (p.1, bump p.2) else p)) =
      if k0 = k then (lookupKey k l).map bump else lookupKey k l := by
  induction l with
  | nil => simp [lookupKey]
  | cons p t ih =>
    by_cases hp : p.1 = k0
    · by_cases hk : k0 = k
      · subst hk
        simp [lookupKey, hp, ih]
      · have hpk : p.1 ≠ k := by
          rw [hp]; exact hk
        simp [lookupKey, hp, hpk, ih, hk]
    · by_cases hpk : p.1 = k
      · have hk : k0 ≠ k := by
          intro hc; exact hp (hpk.trans hc.symm)
        simp [lookupKey, hp, hpk, hk, Ne.symm hk]
      · simp [lookupKey, hp, hpk, ih]

theorem lookupKey_upsertRecord {G : Type} (k k0 : String) (init : G) (bump : G → G)
    (acc : List (String × G)) :
    lookupKey k (upsertRecord k0 init bump acc) =
      if k0 = k then
        match lookupKey k acc with
        | some v => some (bump v)
        | none => some init
      else lookupKey k acc := by
  unfold upsertRecord
  cases hl : lookupKey k0 acc with
  | some v =>
    rw [lookupKey_mapUpdate]
    by_cases hk : k0 = k
    · subst hk
      rw [hl]
      simp [hl]
    · simp [hk]
  | none =>
    rw [lookupKey_append]
    by_cases hk : k0 = k
    · subst hk
      rw [hl]
      simp [lookupKey]
    · cases h2 : lookupKey k acc <;> simp [h2, lookupKey, hk]

theorem lookupKey_mem {G : Type} (k : String) (g : G) :
    ∀ l : List (String × G), lookupKey k l = some g → (k, g) ∈ l := by
  intro l
  induction l with
  | nil => intro h; simp [lookupKey] at h
  | cons p t ih =>
    intro h
    by_cases hp : p.1 = k
    · simp [lookupKey, hp] at h
      rw [← hp, ← h]
      exact List.mem_cons_self _ _
    · simp [lookupKey, hp] at h
      exact List.mem_cons_of_mem _ (ih h)

/-- Grouping key of `src/unnamed/part_005` line 136:
`` `${d.bankCode}-${d.accountNo}` ``. -/
def key5 (d : Disbursement) : String := d.bankCode ++ "-" ++ d.accountNo

/-- Grouping key of `Dashboard.tsx` line 101:
`` `${d.bankName}-${d.accountNo}` ``. -/
def keyDash (d : Disbursement) : String := d.bankName ++ "-" ++ d.accountNo

/-- Group record of `part_005` `disbursementStats`. -/
structure DisbGroup5 where
  bankName : String
  bankCode : String
  accountNo : String
  total : ℚ
deriving Repr, DecidableEq

/-- Group record of `Dashboard.tsx` `disbursementTotals`. -/
structure DashGroup where
  name : String
  total : ℚ
  account : String
deriving Repr, DecidableEq

/-- One step of the `part_005` rollup (lines 134-142). -/
def addDisb5 (acc : List (String × DisbGroup5)) (d : Disbursement) :
    List (String × DisbGroup5) :=
  upsertRecord (key5 d)
    { bankName := d.bankName, bankCode := d.bankCode, accountNo := d.accountNo,
      total := 0 + d.amount }
    (fun g => { g with total := g.total + d.amount }) acc

/-- One step of the Dashboard rollup (lines 99-105). -/
def addDisbDash (acc : List (String × DashGroup)) (d : Disbursement) :
    List (String × DashGroup) :=
  upsertRecord (keyDash d)
    { name := d.bankName, total := 0 + d.amount, account := d.accountNo }
    (fun g => { g with total := g.total + d.amount }) acc

/-- The disbursements of all entries in visit order
(`entries.forEach(e => e.disbursements?.forEach(...))`). -/
def allDisbs (es : List FinancialEntry) : List Disbursement :=
  es.foldl (fun acc e => acc ++ e.disbursements) []

/-- The `stats` record of `part_005` before `Object.values` and sorting. -/
def disbGroups5 (es : List FinancialEntry) : List (String × DisbGroup5) :=
  (allDisbs es).foldl addDisb5 []

/-- The `totals` record of `Dashboard.tsx` before `Object.values` and
sorting. -/
def dashGroups (es : List FinancialEntry) : List (String × DashGroup) :=
  (allDisbs es).foldl addDisbDash []

/-- Descending-total comparator of `part_005` line 143:
`sort((a, b) => b.total - a.total)`. -/
def totalGe (a b : DisbGroup5) : Prop := b.total ≤ a.total

instance : DecidableRel totalGe := fun a b => inferInstanceAs (Decidable (b.total ≤ a.total))

instance : IsTotal DisbGroup5 totalGe := ⟨fun a b => le_total b.total a.total⟩

instance : IsTrans DisbGroup5 totalGe := ⟨fun _ _ _ hab hbc => le_trans hbc hab⟩

/-- `disbursementStats` of `part_005` lines 132-144: group, take the
record's values, sort by total descending (stable). -/
def disbursementStats (es : List FinancialEntry) : List DisbGroup5 :=
  List.insertionSort totalGe ((disbGroups5 es).map (fun p => p.2))

/-- `Object.values(totals)` of `Dashboard.tsx` line 107 — the Dashboard
rollup before its UI-state-dependent, locale-aware presentation sort
(lines 109-115), which only permutes this list. -/
def disbursementTotalsRaw (es : List FinancialEntry) : List DashGroup :=
  (dashGroups es).map (fun p => p.2)

theorem lookup_foldl_addDisb5 (ds : List Disbursement) :
    ∀ (acc : List (String × DisbGroup5)) (k : String),
      lookupKey k (ds.foldl addDisb5 acc) =
        match lookupKey k acc, ds.filter (fun d => decide (key5 d = k)) with
        | some g, fs => some { g with total := g.total + ((fs.map (fun d => d.amount)).sum) }
        | none, [] => none
        | none, d0 :: fs =>
          some { bankName := d0.bankName, bankCode := d0.bankCode,
                 accountNo := d0.accountNo,
                 total := 0 + d0.amount + ((fs.map (fun d => d.amount)).sum) } := by
  induction ds with
  | nil =>
    intro acc k
    cases h : lookupKey k acc <;> simp [h]
  | cons d ds ih =>
    intro acc k
    rw [List.foldl_cons, ih]
    simp only [addDisb5]
    rw [lookupKey_upsertRecord]
    by_cases hk : key5 d = k
    · rw [if_pos hk]
      simp only [List.filter_cons, hk]
      rw [if_pos (by simp)]
      cases h : lookupKey k acc with
      | some g => simp [h, add_assoc]
      | none => simp [h, add_assoc]
    · rw [if_neg hk]
      simp only [List.filter_cons]
      rw [if_neg (by simp [hk])]

theorem lookup_foldl_addDisbDash (ds : List Disbursement) :
    ∀ (acc : List (String × DashGroup)) (k : String),
      lookupKey k (ds.foldl addDisbDash acc) =
        match lookupKey k acc, ds.filter (fun d => decide (keyDash d = k)) with
        | some g, fs => some { g with total := g.total + ((fs.map (fun d => d.amount)).sum) }
        | none, [] => none
        | none, d0 :: fs =>
          some { name := d0.bankName,
                 total := 0 + d0.amount + ((fs.map (fun d => d.amount)).sum),
                 account := d0.accountNo } := by
  induction ds with
  | nil =>
    intro acc k
    cases h : lookupKey k acc <;> simp [h]
  | cons d ds ih =>
    intro acc k
    rw [List.foldl_cons, ih]
    simp only [addDisbDash]
    rw [lookupKey_upsertRecord]
    by_cases hk : keyDash d = k
    · rw [if_pos hk]
      simp only [List.filter_cons, hk]
      rw [if_pos (by simp)]
      cases h : lookupKey k acc with
      | some g => simp [h, add_assoc]
      | none => simp [h, add_assoc]
    · rw [if_neg hk]
      simp only [List.filter_cons]
      rw [if_neg (by simp [hk])]

theorem lookup_disbGroups5_total (es : List FinancialEntry) (k : String)
    (hx : ∃ d, d ∈ allDisbs es ∧ key5 d = k) :
    ∃ g, lookupKey k (disbGroups5 es) = some g ∧
      g.total =
        (((allDisbs es).filter (fun d => decide (key5 d = k))).map
          (fun d => d.amount)).sum := by
  obtain ⟨d, hd, hk⟩ := hx
  have hmem : d ∈ (allDisbs es).filter (fun d => decide (key5 d = k)) :=
    List.mem_filter.mpr ⟨hd, by simp [hk]⟩
  rw [disbGroups5, lookup_foldl_addDisb5]
  cases hf : (allDisbs es).filter (fun d => decide (key5 d = k)) with
  | nil =>
    rw [hf] at hmem
    simp at hmem
  | cons d0 fs =>
    refine ⟨{ bankName := d0.bankName, bankCode := d0.bankCode,
              accountNo := d0.accountNo,
              total := d0.amount + ((fs.map (fun d => d.amount)).sum) }, ?_, ?_⟩
    · simp [lookupKey]
    · simp

theorem lookup_dashGroups_total (es : List FinancialEntry) (k : String)
    (hx : ∃ d, d ∈ allDisbs es ∧ keyDash d = k) :
    ∃ g, lookupKey k (dashGroups es) = some g ∧
      g.total =
        (((allDisbs es).filter (fun d => decide (keyDash d = k))).map
          (fun d => d.amount)).sum := by
  obtain ⟨d, hd, hk⟩ := hx
  have hmem : d ∈ (allDisbs es).filter (fun d => decide (keyDash d = k)) :=
    List.mem_filter.mpr ⟨hd, by simp [hk]⟩
  rw [dashGroups, lookup_foldl_addDisbDash]
  cases hf : (allDisbs es).filter (fun d => decide (keyDash d = k)) with
  | nil =>
    rw [hf] at hmem
    simp at hmem
  | cons d0 fs =>
    refine ⟨{ name := d0.bankName,
              total := d0.amount + ((fs.map (fun d => d.amount)).sum),
              account := d0.accountNo }, ?_, ?_⟩
    · simp [lookupKey]
    · simp

theorem mem_disbursementStats_of_lookup (es : List FinancialEntry) (k : String)
    (g : DisbGroup5) (h : lookupKey k (disbGroups5 es) = some g) :
    g ∈ disbursementStats es := by
  have hg : g ∈ (disbGroups5 es).map (fun p => p.2) :=
    List.mem_map_of_mem _ (lookupKey_mem k g _ h)
  simpa [disbursementStats] using hg

theorem mem_disbursementTotalsRaw_of_lookup (es : List FinancialEntry) (k : String)
    (g : DashGroup) (h : lookupKey k (dashGroups es) = some g) :
    g ∈ disbursementTotalsRaw es :=
  List.mem_map_of_mem _ (lookupKey_mem k g _ h)

/-- Appending distinct suffixes after the same `prefix ++ "-"` gives
distinct key strings. -/
theorem key_suffix_ne {b a1 a2 : String} (ha : a1 ≠ a2) :
    b ++ "-" ++ a1 ≠ b ++ "-" ++ a2 := by
  intro h
  apply ha
  have hd : (b ++ "-").data ++ a1.data = (b ++ "-").data ++ a2.data := by
    have := congrArg String.data h
    simpa [String.data_append] using this
  have hdata : a1.data = a2.data := List.append_cancel_left hd
  cases a1
  cases a2
  exact congrArg String.mk hdata

/-- Disbursement at bank code A, bank name X, account 1. -/
def disbA : Disbursement := { bankCode := "A", bankName := "X", accountNo := "1", amount := 10 }

/-- Disbursement at bank code B, same bank name X and account 1. -/
def disbB : Disbursement := { bankCode := "B", bankName := "X", accountNo := "1", amount := 20 }

/-- One entry routing pay to the same named bank account under two
different bank codes. -/
def cex5 : List FinancialEntry := [{ disbursements := [disbA, disbB] }]

/-- Disbursement with a dash inside its bank code. -/
def ddash1 : Disbursement := { bankCode := "B-1", bankName := "X", accountNo := "2", amount := 10 }

/-- Disbursement whose bank code and account collide with `ddash1` after
concatenation. -/
def ddash2 : Disbursement := { bankCode := "B", bankName := "X", accountNo := "1-2", amount := 20 }

/-- One entry carrying the colliding pair. -/
def cexCol : List FinancialEntry := [{ disbursements := [ddash1, ddash2] }]

/-- Claim C5 counterexample: the Dashboard rollup keys on
`bankName-accountNo`, not `(bankCode, accountNo)` — `disbA` and `disbB`
differ in bank code yet land in a single merged group of total 30, while
grouping by `(bankCode, accountNo)` (as `part_005` does) keeps them apart;
moreover even `part_005`'s string key `bankCode-accountNo` merges the
dash-colliding pair `ddash1`/`ddash2`, which share a bank name but have
different account numbers and were claimed to stay separate. -/
theorem disbursement_grouping_cex :
    disbursementTotalsRaw cex5 = [{ name := "X", total := 30, account := "1" }] ∧
    (disbursementStats cex5).length = 2 ∧
    ddash1.bankName = ddash2.bankName ∧ ddash1.accountNo ≠ ddash2.accountNo ∧
    (disbursementStats cexCol).length = 1 := by
  refine ⟨?_, ?_, rfl, by decide, ?_⟩
  · norm_num [disbursementTotalsRaw, dashGroups, allDisbs, addDisbDash, upsertRecord,
      lookupKey, keyDash, disbA, disbB, cex5, List.foldl]
  · norm_num [disbursementStats, disbGroups5, allDisbs, addDisb5, upsertRecord,
      lookupKey, key5, disbA, disbB, cex5, List.foldl, List.insertionSort,
      List.orderedInsert, totalGe]
  · norm_num [disbursementStats, disbGroups5, allDisbs, addDisb5, upsertRecord,
      lookupKey, key5, ddash1, ddash2, cexCol, List.foldl, List.insertionSort,
      List.orderedInsert, totalGe]

/-- Claim C5 (amended): `part_005`'s rollup groups by the string key
`bankCode-accountNo` and the Dashboard's by `bankName-accountNo`.  Two
disbursements sharing a bank name but holding different account numbers
always occupy distinct keys of the Dashboard rollup, each totalling
exactly the amounts of its own key; in `part_005`'s rollup the same holds
whenever their `bankCode-accountNo` strings differ (in particular for
dash-free bank codes), the groups appearing in the exposed sorted list. -/
theorem disbursement_grouping (es : List FinancialEntry) (d1 d2 : Disbursement)
    (h1 : d1 ∈ allDisbs es) (h2 : d2 ∈ allDisbs es)
    (hn : d1.bankName = d2.bankName) (ha : d1.accountNo ≠ d2.accountNo) :
    keyDash d1 ≠ keyDash d2 ∧
    (∃ g1 g2, lookupKey (keyDash d1) (dashGroups es) = some g1 ∧
      lookupKey (keyDash d2) (dashGroups es) = some g2 ∧
      g1.total = (((allDisbs es).filter
        (fun d => decide (keyDash d = keyDash d1))).map (fun d => d.amount)).sum ∧
      g2.total = (((allDisbs es).filter
        (fun d => decide (keyDash d = keyDash d2))).map (fun d => d.amount)).sum ∧
      g1 ∈ disbursementTotalsRaw es ∧ g2 ∈ disbursementTotalsRaw es) ∧
    (key5 d1 ≠ key5 d2 →
      ∃ p1 p2, lookupKey (key5 d1) (disbGroups5 es) = some p1 ∧
        lookupKey (key5 d2) (disbGroups5 es) = some p2 ∧
        p1.total = (((allDisbs es).filter
          (fun d => decide (key5 d = key5 d1))).map (fun d => d.amount)).sum ∧
        p2.total = (((allDisbs es).filter
          (fun d => decide (key5 d = key5 d2))).map (fun d => d.amount)).sum ∧
        p1 ∈ disbursementStats es ∧ p2 ∈ disbursementStats es) := by
  have hkd : keyDash d1 ≠ keyDash d2 := by
    unfold keyDash
    rw [hn]
    exact key_suffix_ne ha
  refine ⟨hkd, ?_, ?_⟩
  · obtain ⟨g1, hg1, ht1⟩ := lookup_dashGroups_total es (keyDash d1) ⟨d1, h1, rfl⟩
    obtain ⟨g2, hg2, ht2⟩ := lookup_dashGroups_total es (keyDash d2) ⟨d2, h2, rfl⟩
    exact ⟨g1, g2, hg1, hg2, ht1, ht2,
      mem_disbursementTotalsRaw_of_lookup es _ g1 hg1,
      mem_disbursementTotalsRaw_of_lookup es _ g2 hg2⟩
  · intro _
    obtain ⟨p1, hp1, hq1⟩ := lookup_disbGroups5_total es (key5 d1) ⟨d1, h1, rfl⟩
    obtain ⟨p2, hp2, hq2⟩ := lookup_disbGroups5_total es (key5 d2) ⟨d2, h2, rfl⟩
    exact ⟨p1, p2, hp1, hp2, hq1, hq2,
      mem_disbursementStats_of_lookup es _ p1 hp1,
      mem_disbursementStats_of_lookup es _ p2 hp2⟩

/-- Disbursement of 5 to bank code C, name X, account 1. -/
def disbW1 : Disbursement := { bankCode := "C", bankName := "X", accountNo := "1", amount := 5 }

/-- Disbursement of 7 to bank code D, name X, account 2. -/
def disbW2 : Disbursement := { bankCode := "D", bankName := "X", accountNo := "2", amount := 7 }

/-- Two entries sharing a bank name across two accounts. -/
def wit5 : List FinancialEntry :=
  [{ disbursements := [disbW1] }, { disbursements := [disbW2] }]

/-- Claim C5 witness: for the two same-named different-account
disbursements the amended theorem yields distinct keys and unmerged
totals 5 and 7, the part_005 group appearing in the sorted stats. -/
theorem disbursement_grouping_witness :
    keyDash disbW1 ≠ keyDash disbW2 ∧
    (∃ g1, lookupKey (keyDash disbW1) (dashGroups wit5) = some g1 ∧ g1.total = 5) ∧
    (∃ p2, lookupKey (key5 disbW2) (disbGroups5 wit5) = some p2 ∧ p2.total = 7 ∧
      p2 ∈ disbursementStats wit5) := by
  have hmem1 : disbW1 ∈ allDisbs wit5 := by simp [allDisbs, wit5, List.foldl]
  have hmem2 : disbW2 ∈ allDisbs wit5 := by simp [allDisbs, wit5, List.foldl]
  obtain ⟨hk, ⟨g1, g2, hg1, hg2, ht1, ht2, hm1, hm2⟩, h5⟩ :=
    disbursement_grouping wit5 disbW1 disbW2 hmem1 hmem2 rfl (by decide)
  obtain ⟨p1, p2, hp1, hp2, hq1, hq2, hs1, hs2⟩ := h5 (by decide)
  refine ⟨hk, ⟨g1, hg1, ?_⟩, ⟨p2, hp2, ?_, hs2⟩⟩
  · rw [ht1, show (allDisbs wit5).filter
        (fun d => decide (keyDash d = keyDash disbW1)) = [disbW1] from rfl]
    norm_num [disbW1]
  · rw [hq2, show (allDisbs wit5).filter
        (fun d => decide (key5 d = key5 disbW2)) = [disbW2] from rfl]
    norm_num [disbW2]

/-- One step of the yearly rollup of `src/unnamed/part_005` lines 95-100:
key `new Date(e.date).getFullYear().toString()`, summing
`e.grossAmount || 0` and `e.amount` per year. -/
def addYear (acc : List (String × (ℚ × ℚ))) (e : FinancialEntry) :
    List (String × (ℚ × ℚ)) :=
  upsertRecord (toString e.year) (0 + jsOr e.grossAmount 0, 0 + e.amount)
    (fun gn => (gn.1 + jsOr e.grossAmount 0, gn.2 + e.amount)) acc

/-- The `years` record of the yearly rollup. -/
def yearGroups (es : List FinancialEntry) : List (String × (ℚ × ℚ)) :=
  es.foldl addYear []

/-- `Object.keys(years).sort()`: the year-key strings in default (UTF-16
code-unit, i.e. lexicographic) order.  A default `.sort()` fully orders
the distinct keys, so the enumeration order of the record is immaterial. -/
def yearKeys (es : List FinancialEntry) : List String :=
  List.insertionSort (fun a b : String => a ≤ b) ((yearGroups es).map (fun p => p.1))

/-- `sortedYears` of lines 102-105: each key paired with its sums. -/
def yearRows (es : List FinancialEntry) : List (String × ℚ × ℚ) :=
  (yearKeys es).map (fun y => (y, (lookupKey y (yearGroups es)).getD (0, 0)))

/-- The growth pass of lines 107-111: the first row (no predecessor) gets
growth `0`; every later row divides by the previous row's gross via
`jsDiv`. -/
def withGrowth : Option ℚ → List (String × ℚ × ℚ) → List (String × (ℚ × ℚ) × Option ℚ)
  | _, [] => []
  | prev, r :: t =>
    (r.1, r.2,
      match prev with
      | none => some 0
      | some pg => (jsDiv (r.2.1 - pg) pg).map (fun q => q * 100)) ::
    withGrowth (some r.2.1) t

/-- `yearlySummary` of `part_005` lines 93-112. -/
def yearlySummary (es : List FinancialEntry) : List (String × (ℚ × ℚ) × Option ℚ) :=
  withGrowth none (yearRows es)

theorem upsertRecord_ne_nil {G : Type} (k : String) (init : G) (bump : G → G)
    (acc : List (String × G)) : upsertRecord k init bump acc ≠ [] := by
  unfold upsertRecord
  cases hl : lookupKey k acc with
  | none => simp
  | some v =>
    cases acc with
    | nil => simp [lookupKey] at hl
    | cons p t => simp

theorem foldl_addYear_ne_nil (es : List FinancialEntry) :
    ∀ acc, acc ≠ [] → es.foldl addYear acc ≠ [] := by
  induction es with
  | nil => intro acc h; simpa using h
  | cons e t ih =>
    intro acc _
    rw [List.foldl_cons]
    exact ih _ (upsertRecord_ne_nil _ _ _ _)

/-- Entry in calendar year 999 with gross 100 and net 80. -/
def entry999 : FinancialEntry := { year := 999, amount := 80, grossAmount := some 100 }

/-- Entry in calendar year 1000 with gross 300 and net 250. -/
def entry1000 : FinancialEntry := { year := 1000, amount := 250, grossAmount := some 300 }

/-- Collection whose year keys have different digit counts. -/
def cex7 : List FinancialEntry := [entry999, entry1000]

/-- Claim C7 counterexample: the year keys are sorted as strings, and
`"1000" < "999"` lexicographically, so year 1000 is listed first with
growth `0` while the earliest year present, 999, receives the computed
growth `(100 - 300) / 300 * 100 = -200/3 ≠ 0`, contradicting "the growth
of the earliest year present is always exactly 0". -/
theorem yearly_growth_earliest_cex :
    yearlySummary cex7 = [("1000", (300, 250), some 0),
      ("999", (100, 80), some (-200 / 3))] ∧
    entry999.year = 999 ∧ entry1000.year = 1000 ∧ entry999.year < entry1000.year := by
  have hlt : ("1000" : String) < "999" := by
    rw [String.lt_iff_toList_lt]
    decide
  have hle : ¬ (("999" : String) ≤ "1000") := not_le.mpr hlt
  have hne : ("999" : String) ≠ "1000" := by decide
  have ht9 : toString (999 : ℕ) = "999" := rfl
  have ht10 : toString (1000 : ℕ) = "1000" := rfl
  refine ⟨?_, rfl, rfl, by norm_num [entry999, entry1000]⟩
  norm_num [yearlySummary, yearRows, yearKeys, yearGroups, addYear, upsertRecord,
    lookupKey, withGrowth, jsDiv, jsOr, cex7, entry999, entry1000, List.foldl,
    List.insertionSort, List.orderedInsert, hle, hne, hne.symm, ht9, ht10]

/-- Claim C7 (amended): the yearly rollup groups by calendar-year key,
sums gross and net per year, and computes growth as
`(thisYear.gross - prevYear.gross) / prevYear.gross * 100`; the year
listed first — the lexicographically smallest year-key string, which is
the earliest year whenever all years present have equally many digits
(e.g. all four-digit years) — always has growth exactly `0`. -/
theorem yearly_first_growth_zero (es : List FinancialEntry) (h : es ≠ []) :
    ∃ y gn rest, yearlySummary es = (y, gn, some 0) :: rest ∧
      ∀ y' ∈ yearKeys es, y ≤ y' := by
  have hgroups : yearGroups es ≠ [] := by
    cases es with
    | nil => exact absurd rfl h
    | cons e t =>
      rw [yearGroups, List.foldl_cons]
      exact foldl_addYear_ne_nil t _ (upsertRecord_ne_nil _ _ _ _)
  have hkeysne : yearKeys es ≠ [] := by
    intro hc
    have hlen := (List.perm_insertionSort (fun a b : String => a ≤ b)
      ((yearGroups es).map (fun p => p.1))).length_eq
    rw [show List.insertionSort (fun a b : String => a ≤ b)
        ((yearGroups es).map (fun p => p.1)) = yearKeys es from rfl, hc] at hlen
    have : yearGroups es = [] := by
      have := hlen.symm
      simpa using List.length_eq_zero.mp (by simpa using this)
    exact hgroups this
  cases hk : yearKeys es with
  | nil => exact absurd hk hkeysne
  | cons y ys =>
    have hsorted : List.Sorted (fun a b : String => a ≤ b) (y :: ys) := by
      rw [← hk]
      exact List.sorted_insertionSort _ _
    refine ⟨y, (lookupKey y (yearGroups es)).getD (0, 0),
      withGrowth (some ((lookupKey y (yearGroups es)).getD (0, 0)).1)
        (ys.map (fun z => (z, (lookupKey z (yearGroups es)).getD (0, 0)))), ?_, ?_⟩
    · simp only [yearlySummary, yearRows]
      rw [hk]
      rfl
    · intro y' hy'
      rcases List.mem_cons.mp hy' with rfl | hmem
      · exact le_refl _
      · exact (List.sorted_cons.mp hsorted).1 y' hmem

/-- Claim C7 witness: the amended theorem applied to the two-year
collection — its first listed year carries growth `0` and is the
lexicographic minimum of the year keys. -/
theorem yearly_first_growth_zero_witness :
    ∃ y gn rest, yearlySummary cex7 = (y, gn, some 0) :: rest ∧
      ∀ y' ∈ yearKeys cex7, y ≤ y' :=
  yearly_first_growth_zero cex7 (by simp [cex7])

end SalaryTrack
